import Mathlib

/-!
Verification of the thundersvm scikit binding (`src/python/thundersvmScikit.py`)
against its natural-language specification.

The visible repository code is the Python wrapper class `SvmModel` and its
subclasses; the native shared library (`libthundersvm`) is outside the
repository sources.  The wrapper is embedded shallowly below: its mutable
attributes become an explicit `Estimator` record, the values the native
library writes into the wrapper's output buffers become an `Engine` record,
and each Python method becomes a Lean function from the old state (plus the
engine's responses) to the new state together with a trace of the native
calls it made.  Parts of the system that live only in the native library
(one-vs-one voting, the model file format, the sparse/dense kernel paths)
are modelled from the specification text and marked as such.
-/

namespace ThunderSVM

/-- The `SVM_TYPE` list of the source module (line 47). -/
def SVM_TYPE : List String := ["c_svc", "nu_svc", "one_class", "epsilon_svr", "nu_svr"]

/-- The `KERNEL_TYPE` list of the source module (line 48). -/
def KERNEL_TYPE : List String := ["linear", "polynomial", "rbf", "sigmoid", "precomputed"]

/-- The `gamma` hyperparameter: in Python either the string `'auto'` or a number.
Machine floats are embedded as rationals. -/
inductive GammaParam where
  | auto : GammaParam
  | value : ℚ → GammaParam
deriving DecidableEq, Repr

/-- The hyperparameter attributes set by `SvmModel.__init__` (lines 56-72).
The `class_weight` dict is an association list from class id to weight;
`Option.none` embeds Python `None`. -/
structure Hyperparams where
  kernel : String
  degree : ℤ
  gamma : GammaParam
  coef0 : ℚ
  C : ℚ
  nu : ℚ
  epsilon : ℚ
  tol : ℚ
  probability : Bool
  class_weight : Option (List (ℤ × ℚ))
  shrinking : Bool
  cache_size : Option ℚ
  verbose : Bool
  max_iter : ℤ
  n_jobs : ℤ
  max_mem_size : ℤ
  random_state : Option ℤ
deriving DecidableEq, Repr

/-- A dense input matrix `X`: row-major data of shape `rows × cols`
(the wrapper flattens it with `X.ravel()`). -/
structure DenseMatrix where
  rows : ℕ
  cols : ℕ
  data : List ℚ
deriving DecidableEq, Repr

/-- The mutable state of an `SvmModel` instance: the hyperparameters plus the
fitted attributes, each `Option.none` until the corresponding Python
attribute has been assigned.  `impl` is the class attribute `_impl` of the
concrete subclass.  `dual_coef_flat` is the flat buffer read by `get_coef`
(reshaped to `(n_classes - 1) × n_sv` by numpy, which does not change the
entries). -/
structure Estimator where
  impl : String
  params : Hyperparams
  gammaEff : Option ℚ := Option.none
  n_features : Option ℕ := Option.none
  n_classes : Option ℕ := Option.none
  train_succeed : Option ℤ := Option.none
  n_sv : Option ℕ := Option.none
  dual_coef_flat : Option (List ℚ) := Option.none
  intercept_ : Option (List ℚ) := Option.none
  support_row : Option (List ℕ) := Option.none
  support_col : Option (List ℕ) := Option.none
  support_data : Option (List ℚ) := Option.none
  n_support_ : Option (List ℤ) := Option.none
deriving DecidableEq, Repr

/-- The values the native library writes into the wrapper's output buffers
during one `fit` call: the success flag and feature/class counts written by
`dense_model_scikit` / `sparse_model_scikit`, and the buffer contents filled
by `n_sv`, `get_sv`, `get_coef`, `get_rho` and `get_support_classes`.  Buffers
are modelled as functions from index to entry; the wrapper decides how many
entries it reads. -/
structure Engine where
  train_succeed : ℤ
  n_features : ℕ
  n_classes : ℕ
  n_sv : ℕ
  sv_row : ℕ → ℕ
  sv_col : ℕ → ℕ
  sv_data : ℕ → ℚ
  data_size : ℕ
  coef : ℕ → ℚ
  rho : ℕ → ℚ
  n_support : ℕ → ℤ

/-- The argument tuple the wrapper passes to the native training entry point
`dense_model_scikit` (lines 166-172). -/
structure TrainCall where
  samples : ℕ
  features : ℕ
  data : List ℚ
  label : List ℚ
  solver_type : ℕ
  kernel_type : ℕ
  degree : ℤ
  gamma : ℚ
  coef0 : ℚ
  C : ℚ
  nu : ℚ
  epsilon : ℚ
  tol : ℚ
  probability : Bool
  weight_size : ℕ
  weight_label : List ℤ
  weight : List ℚ
deriving DecidableEq, Repr

/-- How a `fit` call ends: `exited` is the `exit()` on an unrecognized kernel
(line 97), `noneRet` is the bare `return` after `Training failed!`
(line 106), `selfRet` is the normal `return self` (line 139). -/
inductive FitReturn where
  | exited : FitReturn
  | noneRet : FitReturn
  | selfRet : FitReturn
deriving DecidableEq, Repr

/-- Result of one `fit` call: how it returned, the estimator state afterwards,
and the arguments of the native training call if one was made. -/
structure FitResult where
  ret : FitReturn
  st : Estimator
  trainCall : Option TrainCall
deriving Repr

/-- The `class_weight` handling shared by `_dense_fit` (lines 153-161) and
`_sparse_fit` (lines 195-203): a `None` weight dict is replaced on the
instance by an empty dict, and the keys/values are marshalled into the
`weight_label` and `weight` arrays.  Returns the new `self.class_weight`,
`weight_size`, `weight_label` and `weight`. -/
def fitClassWeights (cw : Option (List (ℤ × ℚ))) :
    Option (List (ℤ × ℚ)) × ℕ × List ℤ × List ℚ :=
  match cw with
  | Option.none => (some [], 0, [], [])
  | some d => (some d, d.length, d.map Prod.fst, d.map Prod.snd)

/-- Shallow embedding of `SvmModel.fit` (lines 80-139) on the dense path,
inlining `_dense_fit` (lines 141-174).  Faithful to the source order:
`self._gamma` is assigned (lines 91-94) before the kernel check (lines 95-97)
which calls `exit()` without any native training call; otherwise `_dense_fit`
mutates `self.class_weight`, calls `dense_model_scikit`, and stores
`n_features` / `n_classes` / `_train_succeed`; a `-1` success flag makes
`fit` print and return `None` (lines 104-106) before any model attribute is
read; otherwise the support vectors, dual coefficients, rho and per-class
support counts are read from the engine (lines 107-139). -/
def SvmModel.fit (est : Estimator) (X : DenseMatrix) (y : List ℚ) (eng : Engine) :
    FitResult :=
  let gEff : ℚ :=
    match est.params.gamma with
    | GammaParam.auto => 1 / (X.cols : ℚ)
    | GammaParam.value v => v
  let est1 : Estimator := { est with gammaEff := some gEff }
  if est.params.kernel ∈ KERNEL_TYPE then
    let (cw, wsize, wlabel, wval) := fitClassWeights est.params.class_weight
    let tc : TrainCall :=
      { samples := X.rows
        features := X.cols
        data := X.data
        label := y
        solver_type := SVM_TYPE.indexOf est.impl
        kernel_type := KERNEL_TYPE.indexOf est.params.kernel
        degree := est.params.degree
        gamma := gEff
        coef0 := est.params.coef0
        C := est.params.C
        nu := est.params.nu
        epsilon := est.params.epsilon
        tol := est.params.tol
        probability := est.params.probability
        weight_size := wsize
        weight_label := wlabel
        weight := wval }
    let est2 : Estimator :=
      { est1 with
        params := { est1.params with class_weight := cw }
        n_features := some eng.n_features
        n_classes := some eng.n_classes
        train_succeed := some eng.train_succeed }
    if eng.train_succeed = -1 then
      { ret := FitReturn.noneRet, st := est2, trainCall := some tc }
    else
      let K := eng.n_classes
      let nsv := eng.n_sv
      let rhoSize := K * (K - 1) / 2
      let est3 : Estimator :=
        { est2 with
          n_sv := some nsv
          dual_coef_flat := some ((List.range ((K - 1) * nsv)).map eng.coef)
          intercept_ := some ((List.range rhoSize).map eng.rho)
          support_row := some ((List.range (nsv + 1)).map eng.sv_row)
          support_col := some ((List.range eng.data_size).map eng.sv_col)
          support_data := some ((List.range eng.data_size).map eng.sv_data)
          n_support_ := some ((List.range K).map eng.n_support) }
      { ret := FitReturn.selfRet, st := est3, trainCall := some tc }
  else
    { ret := FitReturn.exited, st := est1, trainCall := Option.none }

/-- The values the native library writes during `predict_proba`: the class
count written by `get_n_classes` and the probability buffer filled by
`get_pro`. -/
structure ProbaEngine where
  n_classes : ℕ
  pro : ℕ → ℚ

/-- Result of one `predict_proba` call: the returned array (`Option.none`
embeds the bare `return` of line 252), the estimator state afterwards, and
whether the native `get_pro` call was reached. -/
structure ProbaResult where
  ret : Option (List ℚ)
  st : Estimator
  getProCalled : Bool
deriving Repr

/-- Shallow embedding of `SvmModel.predict_proba` (lines 246-280).  The
wrapper first stores `n_classes` from `get_n_classes`; if the estimator was
constructed with `probability` false (Python `self.probability == 0`) it
prints and returns `None` without reaching `get_pro`; otherwise it reads
`samples * n_classes` probability entries.  The intermediate
`_dense_predict` / `_sparse_predict` call only fills `predict_label`, which
is not part of the returned array and is omitted here. -/
def SvmModel.predict_proba (est : Estimator) (X : DenseMatrix) (eng : ProbaEngine) :
    ProbaResult :=
  let est1 : Estimator := { est with n_classes := some eng.n_classes }
  if est.params.probability = false then
    { ret := Option.none, st := est1, getProCalled := false }
  else
    let size := X.rows * eng.n_classes
    { ret := some ((List.range size).map eng.pro), st := est1, getProCalled := true }

/-- Result of `OneClassSVM.fit` (lines 424-425): the Python method body is
`super(OneClassSVM, self).fit(X, np.ones(_num_samples(X)))` with no `return`
statement, so the method's own return value is `None`; `inner` is the state
and trace of the underlying `SvmModel.fit` call. -/
structure OneClassFitResult where
  ret : Option Estimator
  inner : FitResult
deriving Repr

/-- Shallow embedding of `OneClassSVM.fit` (lines 424-425).  The `y` argument
(default `None` in Python) is accepted but never used: training always
receives `np.ones(_num_samples(X))`, a vector of `X.rows` ones. -/
def OneClassSVM.fit (est : Estimator) (X : DenseMatrix) (_y : Option (List ℚ))
    (eng : Engine) : OneClassFitResult :=
  { ret := Option.none
    inner := SvmModel.fit est X (List.replicate X.rows 1) eng }

/-! Spec-modelled definitions: one-vs-one voting of the Prediction Engine.
The native `dense_predict` / `sparse_predict` routines live in the shared
library, outside the repository sources. -/

/-- Modelled from the spec: the class-pair enumeration of the one-vs-one
decomposition ("builds all K(K-1)/2 one-vs-one binary subproblems"), in the
standard order (0,1), (0,2), …, (0,K-1), (1,2), …. -/
def ovoPairs (k : ℕ) : List (ℕ × ℕ) :=
  (List.range k).flatMap
    (fun i => ((List.range k).filter (fun j => decide (i < j))).map (fun j => (i, j)))

/-- Modelled from the spec: the vote cast by each binary subproblem.  The
decision values arrive one per pair; a positive value votes for the first
class of the pair, otherwise the second class gets the vote. -/
def ovoVoteList (k : ℕ) (dec : List ℚ) : List ℕ :=
  (List.zip (ovoPairs k) dec).map (fun pd => if 0 < pd.2 then pd.1.1 else pd.1.2)

/-- Modelled from the spec: vote totals per class, index `c` holding the
number of binary subproblems whose vote went to class `c`. -/
def ovoVotes (k : ℕ) (dec : List ℚ) : List ℕ :=
  (List.range k).map (fun c => ((ovoVoteList k dec).filter (fun v => v == c)).length)

/-- Maximum of a list of naturals (0 for the empty list). -/
def listMax (l : List ℕ) : ℕ := l.foldr max 0

/-- Index of the first occurrence of the maximum: the argmax with ties broken
towards the lowest index. -/
def argmaxLow (l : List ℕ) : ℕ := l.findIdx (fun x => x == listMax l)

/-- Modelled from the spec: the predicted class of the Prediction Engine's
one-vs-one voting — "majority class wins; tie broken by lowest class
index". -/
def ovoPredict (k : ℕ) (dec : List ℚ) : ℕ := argmaxLow (ovoVotes k dec)

/-! Spec-modelled definitions: the persisted model format of the Model
Assembler.  The native `save_to_file_scikit` / `load_from_file_scikit`
routines live in the shared library, outside the repository sources. -/

/-- Modelled from the spec: the contents of a persisted model file — "svm
kind, kernel kind + parameters, n_features, n_classes, class labels, rho
values, support-vector count per class, and for each support vector its
coefficient(s) and feature values" (floats embedded as rationals; each
support vector is its coefficient list plus its `idx:val` coordinate
pairs). -/
structure SavedModel where
  svm_kind : ℕ
  kernel_kind : ℕ
  degree : ℤ
  gamma : ℚ
  coef0 : ℚ
  n_features : ℕ
  n_classes : ℕ
  labels : List ℤ
  rho : List ℚ
  n_support : List ℕ
  sv : List (List ℚ × List (ℕ × ℚ))
deriving DecidableEq, Repr

/-- Length-prefixed encoding of a list of rationals. -/
def encListQ (l : List ℚ) : List ℚ := (l.length : ℚ) :: l

/-- Length-prefixed encoding of a list of integers. -/
def encListZ (l : List ℤ) : List ℚ := (l.length : ℚ) :: l.map (fun (z : ℤ) => (z : ℚ))

/-- Length-prefixed encoding of a list of naturals. -/
def encListN (l : List ℕ) : List ℚ := (l.length : ℚ) :: l.map (fun (n : ℕ) => (n : ℚ))

/-- Encoding of one `idx:val` coordinate pair of a support-vector line. -/
def encPair (p : ℕ × ℚ) : List ℚ := [(p.1 : ℚ), p.2]

/-- Encoding of one support-vector line: the coefficients, then the
coordinate pairs. -/
def encSV (s : List ℚ × List (ℕ × ℚ)) : List ℚ :=
  encListQ s.1 ++ (s.2.length : ℚ) :: s.2.flatMap encPair

/-- Modelled from the spec: `save_model` — serializes a fitted model to the
token stream of the persisted format, fields in the order the spec lists
them. -/
def saveModel (m : SavedModel) : List ℚ :=
  [(m.svm_kind : ℚ), (m.kernel_kind : ℚ), (m.degree : ℚ), m.gamma, m.coef0,
    (m.n_features : ℚ), (m.n_classes : ℚ)] ++
  encListZ m.labels ++ encListQ m.rho ++ encListN m.n_support ++
  (m.sv.length : ℚ) :: m.sv.flatMap encSV

/-- Reads one token from the stream. -/
def readTok : List ℚ → Option (ℚ × List ℚ)
  | [] => Option.none
  | q :: rest => some (q, rest)

/-- Reads one token and interprets it as a natural number. -/
def readNat (l : List ℚ) : Option (ℕ × List ℚ) :=
  (readTok l).map (fun p => (p.1.num.toNat, p.2))

/-- Reads one token and interprets it as an integer. -/
def readInt (l : List ℚ) : Option (ℤ × List ℚ) :=
  (readTok l).map (fun p => (p.1.num, p.2))

/-- Runs a reader a fixed number of times, collecting the results. -/
def readCount {α : Type} (read : List ℚ → Option (α × List ℚ)) :
    ℕ → List ℚ → Option (List α × List ℚ)
  | 0, l => some ([], l)
  | n + 1, l => do
    let (x, l1) ← read l
    let (xs, l2) ← readCount read n l1
    pure (x :: xs, l2)

/-- Reads a length-prefixed list. -/
def readListOf {α : Type} (read : List ℚ → Option (α × List ℚ)) (l : List ℚ) :
    Option (List α × List ℚ) := do
  let (n, l1) ← readNat l
  readCount read n l1

/-- Reads one `idx:val` coordinate pair. -/
def readPair (l : List ℚ) : Option ((ℕ × ℚ) × List ℚ) := do
  let (i, l1) ← readNat l
  let (v, l2) ← readTok l1
  pure ((i, v), l2)

/-- Reads one support-vector line. -/
def readSV (l : List ℚ) : Option ((List ℚ × List (ℕ × ℚ)) × List ℚ) := do
  let (coefs, l1) ← readListOf readTok l
  let (pairs, l2) ← readListOf readPair l1
  pure ((coefs, pairs), l2)

/-- Modelled from the spec: `load_model` — parses the persisted token stream
back into a model, reading the fields in the same order `saveModel` writes
them. -/
def loadModel (l : List ℚ) : Option SavedModel := do
  let (sk, l1) ← readNat l
  let (kk, l2) ← readNat l1
  let (dg, l3) ← readInt l2
  let (g, l4) ← readTok l3
  let (c0, l5) ← readTok l4
  let (nf, l6) ← readNat l5
  let (nc, l7) ← readNat l6
  let (lb, l8) ← readListOf readInt l7
  let (rh, l9) ← readListOf readTok l8
  let (ns, l10) ← readListOf readNat l9
  let (sv, _) ← readListOf readSV l10
  pure { svm_kind := sk, kernel_kind := kk, degree := dg, gamma := g, coef0 := c0,
         n_features := nf, n_classes := nc, labels := lb, rho := rh,
         n_support := ns, sv := sv }

/-! Spec-modelled definitions: sparse rows and decision values of the
Prediction Engine.  The native `dense_decision` / `sparse_decision` routines
live in the shared library, outside the repository sources. -/

/-- Value of a sparse row at column `j` (first matching index; 0 when the
column is absent). -/
def lookupD (row : List (ℕ × ℚ)) (j : ℕ) : ℚ :=
  (Option.map Prod.snd (row.find? (fun p => p.1 == j))).getD 0

/-- Modelled from the spec: densification of a compressed sparse row
("value array + column-index array") into a dense vector of width `n`. -/
def sparseToDense (n : ℕ) (row : List (ℕ × ℚ)) : List ℚ :=
  (List.range n).map (lookupD row)

/-- Dot product of two dense vectors. -/
def dot (a b : List ℚ) : ℚ := (List.zipWith (fun x y => x * y) a b).sum

/-- Dot product of a sparse row with a dense vector, accumulated over the
stored entries only. -/
def sparseDot (row : List (ℕ × ℚ)) (y : List ℚ) : ℚ :=
  (row.map (fun p => p.2 * y.getD p.1 0)).sum

/-- Squared norm of a sparse row, accumulated over the stored entries. -/
def sparseSelfDot (row : List (ℕ × ℚ)) : ℚ :=
  (row.map (fun p => p.2 * p.2)).sum

/-- Modelled from the spec: one decision value of the Prediction Engine on
the dense path — "computes, for each new vector, kernel values against all
stored support vectors, accumulates weighted sums per binary subproblem".
Every supported kernel (linear, polynomial, rbf, sigmoid) is a function of
the dot products x·sv, x·x and sv·sv, so the kernel is abstracted as a
function `kfun` of those three scalars. -/
def decisionDense (kfun : ℚ → ℚ → ℚ → ℚ) (svs : List (List ℚ)) (coefs : List ℚ)
    (rho : ℚ) (x : List ℚ) : ℚ :=
  (List.zipWith (fun c sv => c * kfun (dot x sv) (dot x x) (dot sv sv)) coefs svs).sum - rho

/-- Modelled from the spec: the same decision value computed on the sparse
path, the input row kept in compressed sparse form. -/
def decisionSparse (kfun : ℚ → ℚ → ℚ → ℚ) (svs : List (List ℚ)) (coefs : List ℚ)
    (rho : ℚ) (row : List (ℕ × ℚ)) : ℚ :=
  (List.zipWith (fun c sv => c * kfun (sparseDot row sv) (sparseSelfDot row) (dot sv sv))
    coefs svs).sum - rho

/-- The linear kernel as a function of the three dot products. -/
def linearK : ℚ → ℚ → ℚ → ℚ := fun dxy _ _ => dxy

/-- The polynomial kernel `(gamma * x.y + coef0) ^ degree` as a function of
the three dot products. -/
def polyK (gamma coef0 : ℚ) (degree : ℕ) : ℚ → ℚ → ℚ → ℚ :=
  fun dxy _ _ => (gamma * dxy + coef0) ^ degree

/-! Concrete fixtures used to instantiate the theorems below. -/

/-- A concrete hyperparameter bundle: the `SVC` defaults, with a numeric
gamma where needed. -/
def testParams : Hyperparams :=
  { kernel := "rbf", degree := 3, gamma := GammaParam.value (1/2), coef0 := 0, C := 1,
    nu := 0, epsilon := 0, tol := 1/1000, probability := false,
    class_weight := Option.none, shrinking := false, cache_size := Option.none,
    verbose := false, max_iter := -1, n_jobs := -1, max_mem_size := -1,
    random_state := Option.none }

/-- A concrete unfitted estimator (an `SVC` instance). -/
def testEstimator : Estimator := { impl := "c_svc", params := testParams }

/-- A concrete estimator whose kernel string is not in `KERNEL_TYPE`. -/
def testEstimatorBadKernel : Estimator :=
  { impl := "c_svc", params := { testParams with kernel := "quadratic" } }

/-- A concrete estimator with `gamma = 'auto'`. -/
def testEstimatorAuto : Estimator :=
  { impl := "c_svc", params := { testParams with gamma := GammaParam.auto } }

/-- A concrete 2×2 input matrix. -/
def testMatrix : DenseMatrix := { rows := 2, cols := 2, data := [1, 0, 0, 1] }

/-- A concrete engine response for a successful 2-class fit. -/
def testEngineOk : Engine :=
  { train_succeed := 0, n_features := 2, n_classes := 2, n_sv := 2,
    sv_row := fun i => i, sv_col := fun _ => 0, sv_data := fun _ => 1,
    data_size := 2, coef := fun _ => 1, rho := fun _ => 0, n_support := fun _ => 1 }

/-- A concrete engine response for a failed fit (`_train_succeed[0] == -1`). -/
def testEngineFail : Engine := { testEngineOk with train_succeed := -1 }

/-- A concrete engine response for `predict_proba`. -/
def testProbaEngine : ProbaEngine := { n_classes := 2, pro := fun _ => 1/2 }

/-- Holds when a `fit` call left every fitted model attribute of the
estimator exactly as it was before the call: no support vectors, dual
coefficients, intercepts or support counts were (re)assigned. -/
def ModelAttrsUnchanged (r : FitResult) (est : Estimator) : Prop :=
  r.st.n_sv = est.n_sv ∧
  r.st.support_row = est.support_row ∧
  r.st.support_col = est.support_col ∧
  r.st.support_data = est.support_data ∧
  r.st.dual_coef_flat = est.dual_coef_flat ∧
  r.st.intercept_ = est.intercept_ ∧
  r.st.n_support_ = est.n_support_

instance (r : FitResult) (est : Estimator) : Decidable (ModelAttrsUnchanged r est) := by
  unfold ModelAttrsUnchanged; infer_instance

/-! Theorems. -/

/-- C2: when training fails (the native success flag is `-1`), the whole fit
fails — `fit` returns `None` (no partial fitted model) without setting
support vectors, dual coefficients, intercepts, or support counts on the
estimator. -/
theorem fit_failure_no_partial_model (est : Estimator) (X : DenseMatrix) (y : List ℚ)
    (eng : Engine) (hk : est.params.kernel ∈ KERNEL_TYPE)
    (hf : eng.train_succeed = -1) :
    (SvmModel.fit est X y eng).ret = FitReturn.noneRet ∧
    (SvmModel.fit est X y eng).st.train_succeed = some (-1) ∧
    ModelAttrsUnchanged (SvmModel.fit est X y eng) est := by
  simp [SvmModel.fit, hk, hf, ModelAttrsUnchanged]

/-- Witness for C2 at a concrete estimator, input and engine response. -/
theorem fit_failure_no_partial_model_witness :
    (SvmModel.fit testEstimator testMatrix [1, 0] testEngineFail).ret = FitReturn.noneRet ∧
    (SvmModel.fit testEstimator testMatrix [1, 0] testEngineFail).st.train_succeed =
      some (-1) ∧
    ModelAttrsUnchanged (SvmModel.fit testEstimator testMatrix [1, 0] testEngineFail)
      testEstimator :=
  fit_failure_no_partial_model testEstimator testMatrix [1, 0] testEngineFail
    (by decide) rfl

/-- C3 (counterexample): fitting with `class_weight = None` does not leave
`class_weight` equal to `None` — `_dense_fit` reassigns it to the empty dict
on the instance (source lines 153-155). -/
theorem fit_class_weight_mutated :
    testEstimator.params.class_weight = Option.none ∧
    (SvmModel.fit testEstimator testMatrix [1, 0] testEngineOk).st.params.class_weight =
      some [] := by
  constructor
  · rfl
  · rfl

/-- C3 (amended): every hyperparameter field other than `class_weight` is
unchanged by `fit`; `class_weight` is unchanged when it was a dict, but a
`None` weight map is replaced by the empty dict. -/
theorem fit_hyperparams_frame (est : Estimator) (X : DenseMatrix) (y : List ℚ)
    (eng : Engine) (hk : est.params.kernel ∈ KERNEL_TYPE) :
    (SvmModel.fit est X y eng).st.params.kernel = est.params.kernel ∧
    (SvmModel.fit est X y eng).st.params.degree = est.params.degree ∧
    (SvmModel.fit est X y eng).st.params.gamma = est.params.gamma ∧
    (SvmModel.fit est X y eng).st.params.coef0 = est.params.coef0 ∧
    (SvmModel.fit est X y eng).st.params.C = est.params.C ∧
    (SvmModel.fit est X y eng).st.params.nu = est.params.nu ∧
    (SvmModel.fit est X y eng).st.params.epsilon = est.params.epsilon ∧
    (SvmModel.fit est X y eng).st.params.tol = est.params.tol ∧
    (SvmModel.fit est X y eng).st.params.probability = est.params.probability ∧
    (SvmModel.fit est X y eng).st.params.shrinking = est.params.shrinking ∧
    (SvmModel.fit est X y eng).st.params.cache_size = est.params.cache_size ∧
    (SvmModel.fit est X y eng).st.params.verbose = est.params.verbose ∧
    (SvmModel.fit est X y eng).st.params.max_iter = est.params.max_iter ∧
    (SvmModel.fit est X y eng).st.params.n_jobs = est.params.n_jobs ∧
    (SvmModel.fit est X y eng).st.params.max_mem_size = est.params.max_mem_size ∧
    (SvmModel.fit est X y eng).st.params.random_state = est.params.random_state ∧
    (SvmModel.fit est X y eng).st.params.class_weight =
      some (est.params.class_weight.getD []) := by
  by_cases hf : eng.train_succeed = -1 <;>
    cases hcw : est.params.class_weight <;>
      simp [SvmModel.fit, hk, hf, fitClassWeights, hcw]

/-- Witness for the amended C3 at a concrete estimator, input and engine. -/
theorem fit_hyperparams_frame_witness :
    (SvmModel.fit testEstimator testMatrix [1, 0] testEngineOk).st.params.kernel =
      testEstimator.params.kernel ∧
    (SvmModel.fit testEstimator testMatrix [1, 0] testEngineOk).st.params.degree =
      testEstimator.params.degree ∧
    (SvmModel.fit testEstimator testMatrix [1, 0] testEngineOk).st.params.gamma =
      testEstimator.params.gamma ∧
    (SvmModel.fit testEstimator testMatrix [1, 0] testEngineOk).st.params.coef0 =
      testEstimator.params.coef0 ∧
    (SvmModel.fit testEstimator testMatrix [1, 0] testEngineOk).st.params.C =
      testEstimator.params.C ∧
    (SvmModel.fit testEstimator testMatrix [1, 0] testEngineOk).st.params.nu =
      testEstimator.params.nu ∧
    (SvmModel.fit testEstimator testMatrix [1, 0] testEngineOk).st.params.epsilon =
      testEstimator.params.epsilon ∧
    (SvmModel.fit testEstimator testMatrix [1, 0] testEngineOk).st.params.tol =
      testEstimator.params.tol ∧
    (SvmModel.fit testEstimator testMatrix [1, 0] testEngineOk).st.params.probability =
      testEstimator.params.probability ∧
    (SvmModel.fit testEstimator testMatrix [1, 0] testEngineOk).st.params.shrinking =
      testEstimator.params.shrinking ∧
    (SvmModel.fit testEstimator testMatrix [1, 0] testEngineOk).st.params.cache_size =
      testEstimator.params.cache_size ∧
    (SvmModel.fit testEstimator testMatrix [1, 0] testEngineOk).st.params.verbose =
      testEstimator.params.verbose ∧
    (SvmModel.fit testEstimator testMatrix [1, 0] testEngineOk).st.params.max_iter =
      testEstimator.params.max_iter ∧
    (SvmModel.fit testEstimator testMatrix [1, 0] testEngineOk).st.params.n_jobs =
      testEstimator.params.n_jobs ∧
    (SvmModel.fit testEstimator testMatrix [1, 0] testEngineOk).st.params.max_mem_size =
      testEstimator.params.max_mem_size ∧
    (SvmModel.fit testEstimator testMatrix [1, 0] testEngineOk).st.params.random_state =
      testEstimator.params.random_state ∧
    (SvmModel.fit testEstimator testMatrix [1, 0] testEngineOk).st.params.class_weight =
      some (testEstimator.params.class_weight.getD []) :=
  fit_hyperparams_frame testEstimator testMatrix [1, 0] testEngineOk (by decide)

/-- C6: a fit whose kernel string is outside `KERNEL_TYPE` is aborted
(`exit()`) before any native training call is made. -/
theorem fit_unknown_kernel_aborts (est : Estimator) (X : DenseMatrix) (y : List ℚ)
    (eng : Engine) (hk : est.params.kernel ∉ KERNEL_TYPE) :
    (SvmModel.fit est X y eng).ret = FitReturn.exited ∧
    (SvmModel.fit est X y eng).trainCall = Option.none := by
  simp [SvmModel.fit, hk]

/-- Witness for C6 at a concrete estimator with kernel `"quadratic"`. -/
theorem fit_unknown_kernel_aborts_witness :
    (SvmModel.fit testEstimatorBadKernel testMatrix [1, 0] testEngineOk).ret =
      FitReturn.exited ∧
    (SvmModel.fit testEstimatorBadKernel testMatrix [1, 0] testEngineOk).trainCall =
      Option.none :=
  fit_unknown_kernel_aborts testEstimatorBadKernel testMatrix [1, 0] testEngineOk
    (by decide)

/-- C7: on a model fitted with the probability flag disabled, `predict_proba`
returns `None` and never reaches the native `get_pro` call. -/
theorem predict_proba_requires_probability_fit (est : Estimator) (X : DenseMatrix)
    (eng : ProbaEngine) (hp : est.params.probability = false) :
    (SvmModel.predict_proba est X eng).ret = Option.none ∧
    (SvmModel.predict_proba est X eng).getProCalled = false := by
  simp [SvmModel.predict_proba, hp]

/-- Witness for C7 at a concrete estimator fitted without probability. -/
theorem predict_proba_requires_probability_fit_witness :
    (SvmModel.predict_proba testEstimator testMatrix testProbaEngine).ret =
      Option.none ∧
    (SvmModel.predict_proba testEstimator testMatrix testProbaEngine).getProCalled =
      false :=
  predict_proba_requires_probability_fit testEstimator testMatrix testProbaEngine rfl

/-- C8: a successful fit reporting `K` classes stores exactly
`K * (K - 1) / 2` intercepts (rho values), one per binary subproblem. -/
theorem fit_intercept_count (est : Estimator) (X : DenseMatrix) (y : List ℚ)
    (eng : Engine) (hk : est.params.kernel ∈ KERNEL_TYPE)
    (hs : ¬eng.train_succeed = -1) :
    Option.map List.length (SvmModel.fit est X y eng).st.intercept_ =
      some (eng.n_classes * (eng.n_classes - 1) / 2) := by
  simp [SvmModel.fit, hk, hs]

/-- Witness for C8 at a concrete successful 2-class fit (1 intercept). -/
theorem fit_intercept_count_witness :
    Option.map List.length
      (SvmModel.fit testEstimator testMatrix [1, 0] testEngineOk).st.intercept_ =
      some (testEngineOk.n_classes * (testEngineOk.n_classes - 1) / 2) :=
  fit_intercept_count testEstimator testMatrix [1, 0] testEngineOk (by decide)
    (by decide)

/-- C9: with `gamma = 'auto'` the native training call receives
`1 / X.shape[1]` as gamma; with any numeric gamma it receives that value
unchanged. -/
theorem fit_effective_gamma (est : Estimator) (X : DenseMatrix) (y : List ℚ)
    (eng : Engine) (hk : est.params.kernel ∈ KERNEL_TYPE) :
    (est.params.gamma = GammaParam.auto →
      Option.map TrainCall.gamma (SvmModel.fit est X y eng).trainCall =
        some (1 / (X.cols : ℚ))) ∧
    ∀ v, est.params.gamma = GammaParam.value v →
      Option.map TrainCall.gamma (SvmModel.fit est X y eng).trainCall = some v := by
  constructor
  · intro hg
    by_cases hf : eng.train_succeed = -1 <;> simp [SvmModel.fit, hk, hf, hg]
  · intro v hg
    by_cases hf : eng.train_succeed = -1 <;> simp [SvmModel.fit, hk, hf, hg]

/-- Witness for C9 at a concrete `gamma='auto'` estimator on a 2-column
matrix. -/
theorem fit_effective_gamma_witness :
    (testEstimatorAuto.params.gamma = GammaParam.auto →
      Option.map TrainCall.gamma
        (SvmModel.fit testEstimatorAuto testMatrix [1, 0] testEngineOk).trainCall =
        some (1 / (testMatrix.cols : ℚ))) ∧
    ∀ v, testEstimatorAuto.params.gamma = GammaParam.value v →
      Option.map TrainCall.gamma
        (SvmModel.fit testEstimatorAuto testMatrix [1, 0] testEngineOk).trainCall =
        some v :=
  fit_effective_gamma testEstimatorAuto testMatrix [1, 0] testEngineOk (by decide)

/-- C10: `OneClassSVM.fit` ignores its `y` argument, always trains on a label
vector of `X.rows` ones, and returns `None` rather than the estimator. -/
theorem oneclass_fit_ignores_y (est : Estimator) (X : DenseMatrix)
    (y y' : Option (List ℚ)) (eng : Engine)
    (hk : est.params.kernel ∈ KERNEL_TYPE) :
    OneClassSVM.fit est X y eng = OneClassSVM.fit est X y' eng ∧
    (OneClassSVM.fit est X y eng).ret = Option.none ∧
    Option.map TrainCall.label (OneClassSVM.fit est X y eng).inner.trainCall =
      some (List.replicate X.rows 1) ∧
    ∀ tc, (OneClassSVM.fit est X y eng).inner.trainCall = some tc →
      tc.label.length = X.rows := by
  have hlab : Option.map TrainCall.label (OneClassSVM.fit est X y eng).inner.trainCall =
      some (List.replicate X.rows 1) := by
    by_cases hf : eng.train_succeed = -1 <;>
      simp [OneClassSVM.fit, SvmModel.fit, hk, hf]
  refine ⟨rfl, rfl, hlab, ?_⟩
  intro tc htc
  rw [htc] at hlab
  have hl : tc.label = List.replicate X.rows 1 := by simpa using hlab
  rw [hl, List.length_replicate]

/-- Witness for C10 at concrete inputs, with two distinct `y` arguments. -/
theorem oneclass_fit_ignores_y_witness :
    OneClassSVM.fit testEstimator testMatrix (some [5, 7]) testEngineOk =
      OneClassSVM.fit testEstimator testMatrix Option.none testEngineOk ∧
    (OneClassSVM.fit testEstimator testMatrix (some [5, 7]) testEngineOk).ret =
      Option.none ∧
    Option.map TrainCall.label
      (OneClassSVM.fit testEstimator testMatrix (some [5, 7]) testEngineOk).inner.trainCall =
      some (List.replicate testMatrix.rows 1) ∧
    ∀ tc, (OneClassSVM.fit testEstimator testMatrix (some [5, 7])
        testEngineOk).inner.trainCall = some tc →
      tc.label.length = testMatrix.rows :=
  oneclass_fit_ignores_y testEstimator testMatrix (some [5, 7]) Option.none testEngineOk
    (by decide)

/-- Every member of a list of naturals is bounded by `listMax`. -/
theorem le_listMax (l : List ℕ) (x : ℕ) (hx : x ∈ l) : x ≤ listMax l := by
  induction l with
  | nil => cases hx
  | cons a t ih =>
    have hm : listMax (a :: t) = max a (listMax t) := rfl
    rcases List.mem_cons.mp hx with h | h
    · rw [hm, h]; exact le_max_left _ _
    · rw [hm]; exact le_trans (ih h) (le_max_right _ _)

/-- A nonempty list of naturals attains its maximum. -/
theorem listMax_mem (l : List ℕ) (hl : l ≠ []) : listMax l ∈ l := by
  induction l with
  | nil => exact absurd rfl hl
  | cons a t ih =>
    have hm : listMax (a :: t) = max a (listMax t) := rfl
    by_cases ht : t = []
    · subst ht; simp [listMax]
    · rcases max_cases a (listMax t) with ⟨h1, _⟩ | ⟨h1, _⟩
      · rw [hm, h1]; exact List.mem_cons_self a t
      · rw [hm, h1]; exact List.mem_cons_of_mem _ (ih ht)

/-- On a nonempty list, `argmaxLow` is a valid index. -/
theorem argmaxLow_lt (l : List ℕ) (hl : l ≠ []) : argmaxLow l < l.length := by
  apply List.findIdx_lt_length_of_exists
  exact ⟨listMax l, listMax_mem l hl, by simp⟩

/-- The entry at `argmaxLow` is the maximum. -/
theorem getElem_argmaxLow (l : List ℕ) (h : argmaxLow l < l.length) :
    l[argmaxLow l] = listMax l := by
  have hp := @List.findIdx_getElem ℕ (fun x => x == listMax l) l h
  simpa using hp

/-- Entries strictly before `argmaxLow` are not the maximum. -/
theorem getElem_lt_argmaxLow (l : List ℕ) (j : ℕ) (hj : j < argmaxLow l) :
    l.get ⟨j, lt_of_lt_of_le hj (List.findIdx_le_length _)⟩ ≠ listMax l := by
  have hp := List.not_of_lt_findIdx hj
  simpa using hp

/-- C1: the one-vs-one voting of the Prediction Engine assigns each sample
the class with the majority of votes across the binary decision values, with
ties resolved to the lowest class index: the predicted class is a valid
class index, its vote total is maximal, and every class tied with it has an
index no smaller. -/
theorem ovo_predict_majority_tie_lowest (k : ℕ) (dec : List ℚ) (hk : 0 < k) :
    ovoPredict k dec < k ∧
    (∀ j, j < k →
      (ovoVotes k dec).getD j 0 ≤ (ovoVotes k dec).getD (ovoPredict k dec) 0) ∧
    ∀ j, j < k →
      (ovoVotes k dec).getD j 0 = (ovoVotes k dec).getD (ovoPredict k dec) 0 →
      ovoPredict k dec ≤ j := by
  set l := ovoVotes k dec with hl
  have hlen : l.length = k := by simp [hl, ovoVotes]
  have hne : l ≠ [] := by
    intro h
    rw [h] at hlen
    simp at hlen
    omega
  have hwlt : argmaxLow l < l.length := argmaxLow_lt l hne
  have hwk : ovoPredict k dec < k := by
    have : ovoPredict k dec = argmaxLow l := rfl
    omega
  have hwmax : l.getD (ovoPredict k dec) 0 = listMax l := by
    have : ovoPredict k dec = argmaxLow l := rfl
    rw [this, List.getD_eq_getElem l 0 hwlt]
    exact getElem_argmaxLow l hwlt
  refine ⟨hwk, ?_, ?_⟩
  · intro j hj
    have hjl : j < l.length := by omega
    rw [List.getD_eq_getElem l 0 hjl, hwmax]
    exact le_listMax l _ (List.getElem_mem hjl)
  · intro j hj htie
    by_contra hlt
    push_neg at hlt
    have hja : j < argmaxLow l := by
      have : ovoPredict k dec = argmaxLow l := rfl
      omega
    have hjl : j < l.length := by omega
    have hne2 := getElem_lt_argmaxLow l j hja
    rw [List.getD_eq_getElem l 0 hjl, hwmax] at htie
    exact hne2 htie

/-- Witness for C1: a 3-class problem whose decision values `[1, -1, 1]`
produce the full tie `votes = [1, 1, 1]`, resolved to class 0. -/
theorem ovo_predict_majority_tie_lowest_witness :
    ovoPredict 3 [1, -1, 1] < 3 ∧
    (∀ j, j < 3 →
      (ovoVotes 3 [1, -1, 1]).getD j 0 ≤
        (ovoVotes 3 [1, -1, 1]).getD (ovoPredict 3 [1, -1, 1]) 0) ∧
    ∀ j, j < 3 →
      (ovoVotes 3 [1, -1, 1]).getD j 0 =
        (ovoVotes 3 [1, -1, 1]).getD (ovoPredict 3 [1, -1, 1]) 0 →
      ovoPredict 3 [1, -1, 1] ≤ j :=
  ovo_predict_majority_tie_lowest 3 [1, -1, 1] (by decide)

/-- Reading one plain token from a cons stream. -/
theorem readTok_cons (q : ℚ) (rest : List ℚ) : readTok (q :: rest) = some (q, rest) := rfl

/-- Reading back a natural number token. -/
theorem readNat_cons (n : ℕ) (rest : List ℚ) :
    readNat ((n : ℚ) :: rest) = some (n, rest) := by
  simp [readNat, readTok]

/-- Reading back an integer token. -/
theorem readInt_cons (z : ℤ) (rest : List ℚ) :
    readInt ((z : ℚ) :: rest) = some (z, rest) := by
  simp [readInt, readTok]

/-- A counted run of any reader inverts the concatenated encoding it
counts. -/
theorem readCount_flatMap {α : Type} (read : List ℚ → Option (α × List ℚ))
    (enc : α → List ℚ) (h : ∀ x rest, read (enc x ++ rest) = some (x, rest))
    (l : List α) (rest : List ℚ) :
    readCount read l.length (l.flatMap enc ++ rest) = some (l, rest) := by
  induction l with
  | nil => simp [readCount]
  | cons x t ih =>
    have hsh : (x :: t).flatMap enc ++ rest = enc x ++ (t.flatMap enc ++ rest) := by
      simp
    rw [List.length_cons, hsh]
    simp only [readCount, h x (t.flatMap enc ++ rest), Option.bind_eq_bind,
      Option.some_bind, ih]
    rfl

/-- A length-prefixed list read inverts the length-prefixed encoding. -/
theorem readListOf_flatMap {α : Type} (read : List ℚ → Option (α × List ℚ))
    (enc : α → List ℚ) (h : ∀ x rest, read (enc x ++ rest) = some (x, rest))
    (l : List α) (rest : List ℚ) :
    readListOf read ((l.length : ℚ) :: (l.flatMap enc ++ rest)) = some (l, rest) := by
  simp only [readListOf, readNat_cons, Option.bind_eq_bind, Option.some_bind]
  exact readCount_flatMap read enc h l rest

/-- Singleton encoding of rationals flattens to the identity. -/
theorem flatMap_singleton_rat (l : List ℚ) : l.flatMap (fun q => [q]) = l := by
  induction l with
  | nil => rfl
  | cons x t ih => simp [ih]

/-- Integer lists flatten to their cast image. -/
theorem flatMap_singleton_int (l : List ℤ) :
    l.flatMap (fun (z : ℤ) => [(z : ℚ)]) = l.map (fun (z : ℤ) => (z : ℚ)) := by
  induction l with
  | nil => rfl
  | cons x t ih => rw [List.flatMap_cons, ih, List.map_cons, List.singleton_append]

/-- Natural-number lists flatten to their cast image. -/
theorem flatMap_singleton_nat (l : List ℕ) :
    l.flatMap (fun (n : ℕ) => [(n : ℚ)]) = l.map (fun (n : ℕ) => (n : ℚ)) := by
  induction l with
  | nil => rfl
  | cons x t ih => rw [List.flatMap_cons, ih, List.map_cons, List.singleton_append]

/-- `readListOf readTok` inverts `encListQ`. -/
theorem readListOf_encListQ (l : List ℚ) (rest : List ℚ) :
    readListOf readTok (encListQ l ++ rest) = some (l, rest) := by
  have h : ∀ (x : ℚ) (r : List ℚ), readTok ((fun q => [q]) x ++ r) = some (x, r) :=
    fun x r => rfl
  have hg := readListOf_flatMap readTok (fun q => [q]) h l rest
  rw [flatMap_singleton_rat] at hg
  simpa [encListQ] using hg

/-- `readListOf readInt` inverts `encListZ`. -/
theorem readListOf_encListZ (l : List ℤ) (rest : List ℚ) :
    readListOf readInt (encListZ l ++ rest) = some (l, rest) := by
  have h : ∀ (x : ℤ) (r : List ℚ), readInt ((fun (z : ℤ) => [(z : ℚ)]) x ++ r) = some (x, r) :=
    fun x r => readInt_cons x r
  have hg := readListOf_flatMap readInt (fun (z : ℤ) => [(z : ℚ)]) h l rest
  rw [flatMap_singleton_int] at hg
  have hsh : encListZ l ++ rest =
      (l.length : ℚ) :: (l.map (fun (z : ℤ) => (z : ℚ)) ++ rest) := by
    simp only [encListZ, List.cons_append]
  rw [hsh]
  exact hg

/-- `readListOf readNat` inverts `encListN`. -/
theorem readListOf_encListN (l : List ℕ) (rest : List ℚ) :
    readListOf readNat (encListN l ++ rest) = some (l, rest) := by
  have h : ∀ (x : ℕ) (r : List ℚ), readNat ((fun (n : ℕ) => [(n : ℚ)]) x ++ r) = some (x, r) :=
    fun x r => readNat_cons x r
  have hg := readListOf_flatMap readNat (fun (n : ℕ) => [(n : ℚ)]) h l rest
  rw [flatMap_singleton_nat] at hg
  have hsh : encListN l ++ rest =
      (l.length : ℚ) :: (l.map (fun (n : ℕ) => (n : ℚ)) ++ rest) := by
    simp only [encListN, List.cons_append]
  rw [hsh]
  exact hg

/-- `readPair` inverts `encPair`. -/
theorem readPair_enc (p : ℕ × ℚ) (rest : List ℚ) :
    readPair (encPair p ++ rest) = some (p, rest) := by
  simp [encPair, readPair, readNat_cons, readTok]

/-- `readSV` inverts `encSV`. -/
theorem readSV_enc (s : List ℚ × List (ℕ × ℚ)) (rest : List ℚ) :
    readSV (encSV s ++ rest) = some (s, rest) := by
  have hsh : encSV s ++ rest =
      encListQ s.1 ++ ((s.2.length : ℚ) :: (s.2.flatMap encPair ++ rest)) := by
    simp [encSV]
  rw [hsh]
  simp only [readSV, readListOf_encListQ, Option.bind_eq_bind, Option.some_bind,
    readListOf_flatMap readPair encPair readPair_enc]
  rfl

/-- C4: save followed by load reproduces an identical model — the same
support vectors (coefficients and coordinates), intercepts (rho), class
labels and per-class support counts; integers and rationals are recovered
exactly. -/
theorem save_load_roundtrip (m : SavedModel) : loadModel (saveModel m) = some m := by
  have hsv : readListOf readSV ((m.sv.length : ℚ) :: m.sv.flatMap encSV) =
      some (m.sv, []) := by
    have hg := readListOf_flatMap readSV encSV readSV_enc m.sv []
    simpa using hg
  simp only [saveModel, loadModel, List.cons_append, List.nil_append, List.append_assoc,
    readNat_cons, readInt_cons, readTok_cons, readListOf_encListZ, readListOf_encListQ,
    readListOf_encListN, hsv, Option.bind_eq_bind, Option.some_bind]
  rfl

/-- Dense dot product as a sum over positions. -/
theorem dot_eq_sum_range : ∀ (n : ℕ) (a b : List ℚ), a.length = n → b.length = n →
    dot a b = ∑ j ∈ Finset.range n, a.getD j 0 * b.getD j 0 := by
  intro n
  induction n with
  | zero =>
    intro a b ha hb
    rw [List.length_eq_zero] at ha hb
    subst ha
    subst hb
    simp [dot]
  | succ n ih =>
    intro a b ha hb
    cases a with
    | nil => simp at ha
    | cons x a' =>
      cases b with
      | nil => simp at hb
      | cons y b' =>
        have ha' : a'.length = n := by simpa using ha
        have hb' : b'.length = n := by simpa using hb
        have hdot : dot (x :: a') (y :: b') = x * y + dot a' b' := by
          simp [dot]
        rw [hdot, Finset.sum_range_succ']
        simp only [List.getD_cons_succ, List.getD_cons_zero]
        rw [ih a' b' ha' hb']
        ring

/-- Densification has width `n`. -/
theorem sparseToDense_length (n : ℕ) (row : List (ℕ × ℚ)) :
    (sparseToDense n row).length = n := by
  simp [sparseToDense]

/-- Densification agrees with the sparse lookup at every column. -/
theorem sparseToDense_getD (n : ℕ) (row : List (ℕ × ℚ)) (j : ℕ) (hj : j < n) :
    (sparseToDense n row).getD j 0 = lookupD row j := by
  have hl : j < (sparseToDense n row).length := by
    rw [sparseToDense_length]
    exact hj
  rw [List.getD_eq_getElem _ _ hl]
  simp [sparseToDense]

/-- Unfolding the sparse lookup over a cons cell. -/
theorem lookupD_cons (p : ℕ × ℚ) (rest : List (ℕ × ℚ)) (j : ℕ) :
    lookupD (p :: rest) j = if p.1 = j then p.2 else lookupD rest j := by
  by_cases h : p.1 = j <;> simp [lookupD, List.find?_cons, h]

/-- The sparse lookup of an absent column is zero. -/
theorem lookupD_eq_zero (rest : List (ℕ × ℚ)) (j : ℕ)
    (h : j ∉ rest.map Prod.fst) : lookupD rest j = 0 := by
  cases hf : rest.find? (fun p => p.1 == j) with
  | none => simp [lookupD, hf]
  | some q =>
    exfalso
    have hq := List.find?_some hf
    have hm := List.mem_of_find?_eq_some hf
    apply h
    have hq1 : q.1 = j := by simpa using hq
    rw [← hq1]
    exact List.mem_map_of_mem Prod.fst hm

/-- With distinct column indices the sparse lookup recovers each stored
entry. -/
theorem lookupD_self (row : List (ℕ × ℚ)) (p : ℕ × ℚ)
    (hnd : (row.map Prod.fst).Nodup) (hp : p ∈ row) : lookupD row p.1 = p.2 := by
  induction row with
  | nil => cases hp
  | cons q rest ih =>
    have hnd2 : q.1 ∉ rest.map Prod.fst ∧ (rest.map Prod.fst).Nodup := by
      rw [List.map_cons, List.nodup_cons] at hnd
      exact hnd
    rcases List.mem_cons.mp hp with h | h
    · subst h
      rw [lookupD_cons, if_pos rfl]
    · have hne : q.1 ≠ p.1 := by
        intro he
        apply hnd2.1
        rw [he]
        exact List.mem_map_of_mem Prod.fst h
      rw [lookupD_cons, if_neg hne]
      exact ih hnd2.2 h

/-- Sparse dot product as a sum over all columns, given distinct in-range
indices. -/
theorem sparseDot_eq_sum (row : List (ℕ × ℚ)) (y : List ℚ) (n : ℕ)
    (hnd : (row.map Prod.fst).Nodup) (hlt : ∀ p ∈ row, p.1 < n) :
    sparseDot row y = ∑ j ∈ Finset.range n, lookupD row j * y.getD j 0 := by
  induction row with
  | nil => simp [sparseDot, lookupD]
  | cons p rest ih =>
    have hnd2 : p.1 ∉ rest.map Prod.fst ∧ (rest.map Prod.fst).Nodup := by
      rw [List.map_cons, List.nodup_cons] at hnd
      exact hnd
    have hlt2 : ∀ q ∈ rest, q.1 < n := fun q hq => hlt q (List.mem_cons_of_mem _ hq)
    have hpn : p.1 ∈ Finset.range n :=
      Finset.mem_range.mpr (hlt p (List.mem_cons_self _ _))
    have hpoint : ∀ j, lookupD (p :: rest) j * y.getD j 0 =
        lookupD rest j * y.getD j 0 + (if j = p.1 then p.2 * y.getD j 0 else 0) := by
      intro j
      rcases eq_or_ne j p.1 with h | h
      · subst h
        rw [lookupD_cons, if_pos rfl, if_pos rfl, lookupD_eq_zero rest p.1 hnd2.1]
        ring
      · rw [lookupD_cons, if_neg (Ne.symm h), if_neg h]
        ring
    have hsum : ∑ j ∈ Finset.range n, lookupD (p :: rest) j * y.getD j 0 =
        (∑ j ∈ Finset.range n, lookupD rest j * y.getD j 0) +
        ∑ j ∈ Finset.range n, (if j = p.1 then p.2 * y.getD j 0 else 0) := by
      rw [← Finset.sum_add_distrib]
      exact Finset.sum_congr rfl fun j _ => hpoint j
    have hone : ∑ j ∈ Finset.range n, (if j = p.1 then p.2 * y.getD j 0 else 0) =
        p.2 * y.getD p.1 0 := by
      rw [Finset.sum_ite_eq' (Finset.range n) p.1 (fun j => p.2 * y.getD j 0),
        if_pos hpn]
    have hLHS : sparseDot (p :: rest) y = p.2 * y.getD p.1 0 + sparseDot rest y := by
      simp [sparseDot]
    rw [hLHS, hsum, hone, ih hnd2.2 hlt2]
    ring

/-- The dense dot product of a densified row coincides with the sparse dot
product. -/
theorem dot_sparseToDense (row : List (ℕ × ℚ)) (y : List ℚ) (n : ℕ)
    (hnd : (row.map Prod.fst).Nodup) (hlt : ∀ p ∈ row, p.1 < n)
    (hy : y.length = n) :
    dot (sparseToDense n row) y = sparseDot row y := by
  rw [dot_eq_sum_range n (sparseToDense n row) y (sparseToDense_length n row) hy,
    sparseDot_eq_sum row y n hnd hlt]
  exact Finset.sum_congr rfl fun j hj => by
    rw [sparseToDense_getD n row j (Finset.mem_range.mp hj)]

/-- The squared norm of a densified row coincides with the sparse squared
norm. -/
theorem dot_self_sparseToDense (row : List (ℕ × ℚ)) (n : ℕ)
    (hnd : (row.map Prod.fst).Nodup) (hlt : ∀ p ∈ row, p.1 < n) :
    dot (sparseToDense n row) (sparseToDense n row) = sparseSelfDot row := by
  rw [dot_sparseToDense row (sparseToDense n row) n hnd hlt (sparseToDense_length n row)]
  unfold sparseDot sparseSelfDot
  congr 1
  apply List.map_congr_left
  intro p hp
  rw [sparseToDense_getD n row p.1 (hlt p hp), lookupD_self row p hnd hp]

/-- Pointwise agreement of the two decision-value summands. -/
theorem decision_equiv_aux (kfun : ℚ → ℚ → ℚ → ℚ) (coefs : List ℚ)
    (svs : List (List ℚ)) (row : List (ℕ × ℚ)) (n : ℕ)
    (hnd : (row.map Prod.fst).Nodup) (hlt : ∀ p ∈ row, p.1 < n)
    (hsv : ∀ sv ∈ svs, sv.length = n) :
    List.zipWith (fun c sv => c * kfun (dot (sparseToDense n row) sv)
        (dot (sparseToDense n row) (sparseToDense n row)) (dot sv sv)) coefs svs =
    List.zipWith (fun c sv => c * kfun (sparseDot row sv) (sparseSelfDot row)
        (dot sv sv)) coefs svs := by
  induction coefs generalizing svs with
  | nil => simp
  | cons c cs ih =>
    cases svs with
    | nil => simp
    | cons sv svt =>
      have h1 : dot (sparseToDense n row) sv = sparseDot row sv :=
        dot_sparseToDense row sv n hnd hlt (hsv sv (List.mem_cons_self _ _))
      have h2 := dot_self_sparseToDense row n hnd hlt
      simp only [List.zipWith_cons_cons]
      congr 1
      · rw [h1, h2]
      · exact ih svt fun s hs => hsv s (List.mem_cons_of_mem _ hs)

/-- C5: for an input row representable both densely and as a compressed
sparse row (strictly increasing in-range column indices), the dense and
sparse decision-value paths agree exactly, for every kernel function of the
three dot products and every stored support-vector set — exact equality over
the rationals, hence within any tolerance. -/
theorem sparse_dense_decision_equiv (kfun : ℚ → ℚ → ℚ → ℚ) (svs : List (List ℚ))
    (coefs : List ℚ) (rho : ℚ) (n : ℕ) (row : List (ℕ × ℚ))
    (hinc : List.Pairwise (· < ·) (row.map Prod.fst))
    (hlt : ∀ p ∈ row, p.1 < n) (hsv : ∀ sv ∈ svs, sv.length = n) :
    decisionDense kfun svs coefs rho (sparseToDense n row) =
      decisionSparse kfun svs coefs rho row := by
  have hnd : (row.map Prod.fst).Nodup := hinc.imp fun h => Nat.ne_of_lt h
  unfold decisionDense decisionSparse
  rw [decision_equiv_aux kfun coefs svs row n hnd hlt hsv]

/-- Witness for C5: a 3-column row with two zero entries, two support
vectors, and the linear kernel. -/
theorem sparse_dense_decision_equiv_witness :
    decisionDense linearK [[1, 0, 1], [0, 1, 0]] [1, -1] (1/2)
      (sparseToDense 3 [(0, 1), (2, 2)]) =
    decisionSparse linearK [[1, 0, 1], [0, 1, 0]] [1, -1] (1/2) [(0, 1), (2, 2)] :=
  sparse_dense_decision_equiv linearK [[1, 0, 1], [0, 1, 0]] [1, -1] (1/2) 3
    [(0, 1), (2, 2)] (by decide) (by decide) (by decide)

end ThunderSVM
